import Mathlib

/-
Verification of the dirsearch fork (hikerell/dirsearch): a shallow embedding of
the dictionary generator (lib/core/dictionary.py), the soft-404 analyzer
post-processing (lib/analysis/identify404.py), the controller's response filter
and recursion queue (lib/controller/controller.py), and the requester retry loop
(lib/connection/requester.py), together with proofs of the spec's claims about
them.  Python floats used by the analyzer are modelled exactly by rationals;
Python strings by Lean strings, with the primitive string operations expressed
over the underlying character lists so that every definition evaluates by
kernel reduction.
-/

namespace Dirsearch

/-- Prefix test on the character list of a string (Python `s.startswith(pre)`). -/
def strStarts (s pre : String) : Bool :=
  pre.data.isPrefixOf s.data

/-- Suffix test on the character list of a string (Python `s.endswith(suf)`). -/
def strEnds (s suf : String) : Bool :=
  suf.data.isSuffixOf s.data

/-- Substring test mirroring Python's `pat in s` membership on strings. -/
def strContains (s pat : String) : Bool :=
  s.data.tails.any (fun t => pat.data.isPrefixOf t)

/-- Python `str.lower()` (ASCII case folding, as used by the source). -/
def strLower (s : String) : String :=
  String.mk (s.data.map Char.toLower)

/-- Python `str.upper()` (ASCII case folding, as used by the source). -/
def strUpper (s : String) : String :=
  String.mk (s.data.map Char.toUpper)

/-- Modelled from the spec: `lstrip_once` lives in lib/utils/common which is not
under src/.  Per the spec (§4.3, "after stripping one leading `/`"), it removes
one leading occurrence of the given marker, if present. -/
def lstripOnce (s mark : String) : String :=
  if strStarts s mark then String.mk (s.data.drop mark.data.length) else s

/-- Python `str.capitalize()`: first character uppercased, the rest lowercased. -/
def pyCapitalize (s : String) : String :=
  match s.data with
  | [] => ""
  | c :: cs => String.mk (c.toUpper :: cs.map Char.toLower)

/-- Options of `Dictionary.__init__` (lib/core/dictionary.py). -/
structure DictOptions where
  extensions : List String := []
  exclude_extensions : List String := []
  prefixes : List String := []
  suffixes : List String := []
  force_extensions : Bool := false
  overwrite_extensions : Bool := false
  remove_extensions : Bool := false
  lowercase : Bool := false
  uppercase : Bool := false
  capitalization : Bool := false

/-- The casing applied inside `Dictionary.add`'s local `append` before the
dedup test (lowercase, else uppercase, else capitalize). -/
def applyCasing (o : DictOptions) (path : String) : String :=
  if o.lowercase then strLower path
  else if o.uppercase then strUpper path
  else if o.capitalization then pyCapitalize path
  else path

/-- The body of the local `append` in `Dictionary.add`: apply casing, then
append the path only when it is not already present (exact string match). -/
def appendEntry (o : DictOptions) (entries : List String) (path : String) : List String :=
  if applyCasing o path ∈ entries then entries else entries ++ [applyCasing o path]

/-- The prefix/suffix expansion of `Dictionary.add`: each prefix variant for
prefixes the path does not already carry (and not starting with `/`), each
suffix variant for suffixes the path does not already carry (not ending in `/`,
no `#` in the path), and the path itself when both lists are empty. -/
def affixVariants (o : DictOptions) (path : String) : List String :=
  (o.prefixes.filter
      (fun pre => ¬ (strStarts path "/" ∨ strStarts path pre))).map (fun pre => pre ++ path)
    ++ (o.suffixes.filter
      (fun suf => ¬ (strEnds path "/" ∨ strEnds path suf) ∧ ¬ strContains path "#")).map
        (fun suf => path ++ suf)
    ++ (if o.prefixes = [] ∧ o.suffixes = [] then [path] else [])

/-- `Dictionary.add` (lib/core/dictionary.py, lines 157-177): run `append` on
every prefix/suffix variant of the path. -/
def Dictionary.add (o : DictOptions) (entries : List String) (path : String) : List String :=
  (affixVariants o path).foldl (appendEntry o) entries

/-- Modelled from the spec: `EXTENSION_TAG` lives in lib/core/settings which is
not under src/.  The spec (§6) defines the wordlist extension placeholder as the
case-insensitive marker `%EXT%`; the constant is its lowercase form, matching
the source's `EXTENSION_TAG in line.lower()` test. -/
def EXTENSION_TAG : String := "%ext%"

/-- The source's `EXTENSION_TAG in line.lower()` test. -/
def containsExtTag (line : String) : Bool :=
  strContains (strLower line) EXTENSION_TAG

/-- Case-insensitive substitution of every occurrence of `%EXT%` by the given
extension, mirroring `re.compile(EXTENSION_TAG, re.IGNORECASE).sub(ext, line)`
(left-to-right, non-overlapping).  The numeric argument counts characters still
to drop from a matched occurrence of the five-character tag. -/
def substExtTagAux (ext : String) : ℕ → List Char → List Char
  | _, [] => []
  | k + 1, _ :: cs => substExtTagAux ext k cs
  | 0, c :: cs =>
    if ((c :: cs).take 5).map Char.toLower = EXTENSION_TAG.data then
      ext.data ++ substExtTagAux ext 4 cs
    else
      c :: substExtTagAux ext 0 cs

/-- Case-insensitive substitution of every occurrence of `%EXT%` by the given
extension (the source's `re_ext_tag.sub(extension, line)`). -/
def substExtTag (ext : String) (line : String) : String :=
  String.mk (substExtTagAux ext 0 line.data)

/-- Modelled from the spec: `EXTENSION_RECOGNITION_REGEX` lives in
lib/core/settings which is not under src/.  The spec (§4.3 step 5) speaks of a
line having "a recognizable extension"; modelled as ending with a dot followed
by a nonempty alphanumeric run. -/
def hasRecognizableExtension (line : String) : Bool :=
  let rev := line.data.reverse
  let run := rev.takeWhile Char.isAlphanum
  decide (1 ≤ run.length) && ((rev.drop run.length).head? == some '.')

/-- Modelled from the spec: `EXCLUDE_OVERWRITE_EXTENSIONS` lives in
lib/core/settings which is not under src/.  The spec (§4.3 step 6) calls it "a
fixed ignore list" of extensions; modelled as an unspecified fixed list, kept
empty here (no claim depends on its contents). -/
def EXCLUDE_OVERWRITE_EXTENSIONS : List String := []

/-- Modelled from the spec: the substitution by `EXTENSION_REGEX` (in
lib/core/settings, not under src/) used in the overwrite branch.  The spec
(§4.3 step 6) says the variant has "the existing extension replaced": the
trailing dot-plus-alphanumeric-run becomes `.ext`. -/
def replaceExtension (line ext : String) : String :=
  let rev := line.data.reverse
  let run := rev.takeWhile Char.isAlphanum
  if decide (1 ≤ run.length) && ((rev.drop run.length).head? == some '.') then
    String.mk ((rev.drop (run.length + 1)).reverse) ++ "." ++ ext
  else line

/-- Modelled from the spec: `clean_path` lives in lib/parse/url which is not
under src/.  Modelled as removing the query/fragment part of a path
(everything from the first `?` or `#`). -/
def clean_path (path : String) : String :=
  String.mk (path.data.takeWhile (fun c => c ≠ '?' ∧ c ≠ '#'))

/-- `Dictionary.is_valid` (lib/core/dictionary.py, lines 143-155): reject empty
lines, comment lines, and paths whose cleaned form ends in an excluded
extension. -/
def Dictionary.is_valid (o : DictOptions) (path : String) : Bool :=
  if path.data = [] ∨ strStarts path "#" then false
  else if o.exclude_extensions.any (fun ext => strEnds (clean_path path) ("." ++ ext)) then false
  else true

/-- The per-line body of `Dictionary.generate` (lib/core/dictionary.py, lines
96-141), reified as the ordered list of arguments that the body passes to
`self.add`: strip one leading `/`, truncate at the first dot when
`remove_extensions`, drop invalid lines, then branch on `%EXT%`,
`force_extensions`, and `overwrite_extensions` exactly as the source does. -/
def lineCandidates (o : DictOptions) (rawLine : String) : List String :=
  let line0 := lstripOnce rawLine "/"
  let line := if o.remove_extensions then String.mk (line0.data.takeWhile (· ≠ '.')) else line0
  if ¬ Dictionary.is_valid o line then []
  else if containsExtTag line then
    o.extensions.map (fun ext => substExtTag ext line)
  else if o.force_extensions ∧ ¬ strEnds line "/" ∧ ¬ hasRecognizableExtension line then
    line :: (line ++ "/") :: o.extensions.map (fun ext => line ++ "." ++ ext)
  else if o.overwrite_extensions
      ∧ ¬ (o.extensions ++ EXCLUDE_OVERWRITE_EXTENSIONS).any (fun e => strEnds line e)
      ∧ ¬ strContains line "?" ∧ ¬ strContains line "#"
      ∧ hasRecognizableExtension line then
    line :: o.extensions.map (replaceExtension line)
  else [line]

/-- `Dictionary.generate` (lib/core/dictionary.py, lines 75-141) over the
concatenated lines of all wordlist files: starting from the empty entry list,
process each line and `add` each candidate it produces. -/
def Dictionary.generate (o : DictOptions) (lines : List String) : List String :=
  lines.foldl (fun entries rawLine => (lineCandidates o rawLine).foldl (Dictionary.add o) entries) []

/-- Insertion of a string into the entry list only when absent, i.e. the local
`append` of `Dictionary.add` after casing has been applied. -/
def insertAbsent (entries : List String) (x : String) : List String :=
  if x ∈ entries then entries else entries ++ [x]

/-- Keep the first occurrence of each element, in order of first appearance,
dropping every later duplicate (the spec's "order of first insertion" with
exact-match deduplication).  The accumulator records the elements already
seen. -/
def dedupKeepFirstAux {α : Type} [DecidableEq α] (seen : List α) : List α → List α
  | [] => []
  | x :: xs =>
    if x ∈ seen then dedupKeepFirstAux seen xs
    else x :: dedupKeepFirstAux (seen ++ [x]) xs

/-- First-occurrence deduplication of a list (spec-side description of the
entry sequence). -/
def dedupKeepFirst {α : Type} [DecidableEq α] (l : List α) : List α :=
  dedupKeepFirstAux [] l

/-- The full stream of cased candidate entries that `Dictionary.generate`
offers to the dedup test, in order: for each wordlist line, for each candidate
produced by the line, each prefix/suffix variant with casing applied. -/
def generateStream (o : DictOptions) (lines : List String) : List String :=
  lines.flatMap (fun rawLine =>
    (lineCandidates o rawLine).flatMap (fun p => (affixVariants o p).map (applyCasing o)))

theorem appendEntry_eq_insertAbsent (o : DictOptions) (entries : List String) (path : String) :
    appendEntry o entries path = insertAbsent entries (applyCasing o path) := rfl

theorem add_eq_foldl_insertAbsent (o : DictOptions) (entries : List String) (path : String) :
    Dictionary.add o entries path
      = ((affixVariants o path).map (applyCasing o)).foldl insertAbsent entries := by
  rw [Dictionary.add, List.foldl_map]
  rfl

theorem foldl_flatMap_flatten {α β γ : Type} (ls : List β) (f : β → List γ) (g : α → γ → α) :
    ∀ init : α, (ls.flatMap f).foldl g init = ls.foldl (fun a b => (f b).foldl g a) init := by
  induction ls with
  | nil => intro init; rfl
  | cons x xs ih =>
    intro init
    simp only [List.flatMap_cons, List.foldl_append, List.foldl_cons]
    exact ih _

theorem generate_eq_foldl_stream (o : DictOptions) (lines : List String) :
    Dictionary.generate o lines = (generateStream o lines).foldl insertAbsent [] := by
  rw [Dictionary.generate, generateStream, foldl_flatMap_flatten]
  have hinner : ∀ (entries : List String) (rawLine : String),
      (lineCandidates o rawLine).foldl (Dictionary.add o) entries
        = (lineCandidates o rawLine).foldl
            (fun a p => ((affixVariants o p).map (applyCasing o)).foldl insertAbsent a) entries := by
    intro entries rawLine
    induction lineCandidates o rawLine generalizing entries with
    | nil => rfl
    | cons p ps ih => simp only [List.foldl_cons, add_eq_foldl_insertAbsent, ih]
  have houter : ∀ (lines0 : List String) (entries : List String),
      List.foldl (fun es rawLine => (lineCandidates o rawLine).foldl (Dictionary.add o) es)
          entries lines0
        = List.foldl (fun a rawLine =>
            ((lineCandidates o rawLine).flatMap
              (fun p => (affixVariants o p).map (applyCasing o))).foldl insertAbsent a)
          entries lines0 := by
    intro lines0
    induction lines0 with
    | nil => intro entries; rfl
    | cons l ls ih =>
      intro entries
      simp only [List.foldl_cons, hinner, foldl_flatMap_flatten, ih]
  exact houter lines []

theorem foldl_insertAbsent_eq_dedup (stream : List String) :
    ∀ seen : List String, stream.foldl insertAbsent seen = seen ++ dedupKeepFirstAux seen stream := by
  induction stream with
  | nil => intro seen; simp [dedupKeepFirstAux]
  | cons x xs ih =>
    intro seen
    by_cases hx : x ∈ seen
    · simp [List.foldl_cons, insertAbsent, hx, dedupKeepFirstAux, ih]
    · simp only [List.foldl_cons, insertAbsent, hx, if_false, dedupKeepFirstAux, if_neg hx]
      rw [ih (seen ++ [x])]
      simp

theorem dedupKeepFirstAux_nodup_and_fresh {α : Type} [DecidableEq α] (l : List α) :
    ∀ seen : List α, (dedupKeepFirstAux seen l).Nodup ∧ ∀ y ∈ dedupKeepFirstAux seen l, y ∉ seen := by
  induction l with
  | nil => intro seen; simp [dedupKeepFirstAux]
  | cons x xs ih =>
    intro seen
    by_cases hx : x ∈ seen
    · simpa [dedupKeepFirstAux, hx] using ih seen
    · obtain ⟨hnd, hfresh⟩ := ih (seen ++ [x])
      refine ⟨?_, ?_⟩
      · simp only [dedupKeepFirstAux, if_neg hx, List.nodup_cons]
        exact ⟨fun hmem => (hfresh x hmem) (by simp), hnd⟩
      · intro y hy
        simp only [dedupKeepFirstAux, if_neg hx, List.mem_cons] at hy
        rcases hy with rfl | hy
        · exact hx
        · intro hys
          exact hfresh y hy (by simp [hys])

theorem dedupKeepFirst_nodup {α : Type} [DecidableEq α] (l : List α) :
    (dedupKeepFirst l).Nodup :=
  (dedupKeepFirstAux_nodup_and_fresh l []).1

/-- C3: for the wordlist `["admin", "index.%EXT%", "api/"]` with extensions
`["php", "html"]`, no prefixes, no suffixes, no casing, and all extension flags
false, `Dictionary.generate` produces exactly the ordered entry sequence
`["admin", "index.php", "index.html", "api/"]`: the line containing the
case-insensitive `%EXT%` marker is emitted once per extension with the marker
substituted, and every other line is emitted unchanged. -/
theorem generate_ext_tag_scenario :
    Dictionary.generate { extensions := ["php", "html"] } ["admin", "index.%EXT%", "api/"]
      = ["admin", "index.php", "index.html", "api/"] := by decide

/-- C4: for the wordlist `["test"]` with extensions `["php"]`,
`force_extensions = true`, no prefixes, no suffixes, and no casing,
`Dictionary.generate` produces exactly `["test", "test/", "test.php"]`: a line
with no recognizable extension and not ending in `/` is emitted unchanged,
then with `/` appended, then once per extension with `.ext` appended. -/
theorem generate_force_extensions_scenario :
    Dictionary.generate { extensions := ["php"], force_extensions := true } ["test"]
      = ["test", "test/", "test.php"] := by decide

/-- C5: for every option set and every list of wordlist lines, the entry
sequence produced by `Dictionary.generate` contains no two equal strings
(exact-string deduplication after casing is applied), and the sequence is the
first-occurrence deduplication of the stream of cased candidate entries, i.e.
its order is the order of first insertion. -/
theorem generate_nodup_first_insertion (o : DictOptions) (lines : List String) :
    (Dictionary.generate o lines).Nodup ∧
      Dictionary.generate o lines = dedupKeepFirst (generateStream o lines) := by
  have h : Dictionary.generate o lines = dedupKeepFirst (generateStream o lines) := by
    rw [generate_eq_foldl_stream, foldl_insertAbsent_eq_dedup, dedupKeepFirst]
    simp
  exact ⟨h ▸ dedupKeepFirst_nodup _, h⟩

/-
Soft-404 analyzer post-processing, `identify_404_by_dbscan`
(lib/analysis/identify404.py, lines 90-121).  The DBSCAN fit itself and the
silhouette score are external library calls (sklearn); their outputs enter the
model as an arbitrary labeling (one integer label per response, noise label -1
included) and an arbitrary silhouette value.  Everything after those calls is
embedded: cluster counting, the per-label count/ratio descriptions built by
`collections.Counter` (insertion order = first occurrence), the stable
ascending-by-count sort, and the greedy `success` marking with the 10% ratio
budget.  Ratios (Python floats) are modelled exactly as rationals.
-/

/-- The source's `clusters = len(set(labels))`: number of distinct labels. -/
def numClusters (labels : List ℤ) : ℕ :=
  (dedupKeepFirst labels).length

/-- The source's `bestScore`: defined to be 1 when only a single cluster was
produced, otherwise the externally computed silhouette value. -/
def bestScore (labels : List ℤ) (silhouette : ℚ) : ℚ :=
  if numClusters labels = 1 then 1 else silhouette

/-- A label's ratio, `count / len(labels)`. -/
def labelRatio (labels : List ℤ) (k : ℤ) : ℚ :=
  ((labels.count k : ℕ) : ℚ) / ((labels.length : ℕ) : ℚ)

/-- Stable insertion (by ascending count) used to model Python's stable
`sorted(..., key=lambda m: m["count"])`. -/
def insertByCount (labels : List ℤ) (k : ℤ) : List ℤ → List ℤ
  | [] => [k]
  | j :: js =>
    if labels.count k ≤ labels.count j then k :: j :: js
    else j :: insertByCount labels k js

/-- The distinct labels sorted ascending by count, stably (equal counts keep
Counter insertion order, which is first-occurrence order). -/
def sortedLabels (labels : List ℤ) : List ℤ :=
  (dedupKeepFirst labels).foldr (insertByCount labels) []

/-- The greedy marking loop: walk the sorted descriptions, accumulate the
cumulative ratio, mark `success = true` while the next ratio keeps the
cumulative ratio at most `10 / 100`, and break (leaving the rest `false`) at
the first label that would push it above the budget. -/
def greedyMark (cur : ℚ) : List (ℤ × ℚ) → List (ℤ × ℚ × Bool)
  | [] => []
  | (k, r) :: rest =>
    if r + cur > 1 / 10 then (k, r, false) :: rest.map (fun p => (p.1, p.2, false))
    else (k, r, true) :: greedyMark (cur + r) rest

/-- The sorted label descriptions `(label, ratio)` fed to the greedy loop. -/
def labelDescriptions (labels : List ℤ) : List (ℤ × ℚ) :=
  (sortedLabels labels).map (fun k => (k, labelRatio labels k))

/-- The label descriptions after the greedy `success` marking. -/
def markedDescriptions (labels : List ℤ) : List (ℤ × ℚ × Bool) :=
  greedyMark 0 (labelDescriptions labels)

/-- The `success` flag of a label after marking (the source's
`label_description[v]["success"]`). -/
def labelSuccess (labels : List ℤ) (k : ℤ) : Bool :=
  ((markedDescriptions labels).find? (fun p => p.1 == k)).elim false (fun p => p.2.2)

/-- The source's `results`: one boolean per response, the `success` flag of its
label. -/
def identifyResults (labels : List ℤ) : List Bool :=
  labels.map (labelSuccess labels)

/-- Sum of the ratios of all labels marked `success = true`. -/
def successRatioSum (labels : List ℤ) : ℚ :=
  (((markedDescriptions labels).filter (fun p => p.2.2)).map (fun p => p.2.1)).sum

/-- Maximum over all labels of the label's ratio (0 for an empty labeling). -/
def maxLabelRatio (labels : List ℤ) : ℚ :=
  ((dedupKeepFirst labels).map (labelRatio labels)).foldr max 0

theorem labelRatio_nonneg (labels : List ℤ) (k : ℤ) : 0 ≤ labelRatio labels k :=
  div_nonneg (Nat.cast_nonneg _) (Nat.cast_nonneg _)

theorem greedyMark_sum_le (l : List (ℤ × ℚ)) :
    ∀ cur : ℚ, cur ≤ 1 / 10 → (∀ p ∈ l, 0 ≤ p.2) →
      (((greedyMark cur l).filter (fun p => p.2.2)).map (fun p => p.2.1)).sum ≤ 1 / 10 - cur := by
  induction l with
  | nil =>
    intro cur hcur _
    simp only [greedyMark, List.filter_nil, List.map_nil, List.sum_nil]
    linarith
  | cons p ps ih =>
    obtain ⟨k, r⟩ := p
    intro cur hcur hpos
    have hr : 0 ≤ r := hpos (k, r) (List.mem_cons_self _ _)
    by_cases hgt : r + cur > 1 / 10
    · simp only [greedyMark, if_pos hgt, List.filter_cons]
      have hall : (ps.map (fun p => (p.1, p.2, false))).filter (fun p => p.2.2) = [] := by
        simp [List.filter_map, Function.comp]
      simp [hall]
      linarith
    · have hle : cur + r ≤ 1 / 10 := by linarith
      have hrest := ih (cur + r) hle (fun q hq => hpos q (List.mem_cons_of_mem _ hq))
      simp only [greedyMark, if_neg hgt, List.filter_cons]
      simp only [decide_eq_true_eq, if_pos trivial, List.map_cons, List.sum_cons]
      have : (((greedyMark (cur + r) ps).filter (fun p => p.2.2)).map (fun p => p.2.1)).sum
          ≤ 1 / 10 - (cur + r) := hrest
      linarith

theorem foldr_max_nonneg (l : List ℚ) : 0 ≤ l.foldr max 0 := by
  induction l with
  | nil => simp
  | cons x xs ih => exact le_trans ih (le_max_right x _)

/-- C1: for every non-empty labeling produced by the DBSCAN identifier (the
DBSCAN fit is an external library call, so the labeling is arbitrary), the
labels are sorted ascending by count and greedily marked `success = true`,
stopping at the first label whose ratio would push the cumulative ratio above
`10 / 100`; consequently the sum of the ratios of all labels marked
`success = true` is at most `1 / 10 + max over labels of the label ratio`. -/
theorem success_ratio_budget (labels : List ℤ) (h : labels ≠ []) :
    successRatioSum labels ≤ 1 / 10 + maxLabelRatio labels := by
  have h1 : successRatioSum labels ≤ 1 / 10 - 0 := by
    rw [successRatioSum, markedDescriptions]
    apply greedyMark_sum_le
    · norm_num
    · intro p hp
      rw [labelDescriptions] at hp
      obtain ⟨k, _, rfl⟩ := List.mem_map.mp hp
      exact labelRatio_nonneg _ _
  have h2 : 0 ≤ maxLabelRatio labels := foldr_max_nonneg _
  linarith

/-- Witness for C1 at the concrete labeling `[0, 0, 1]`. -/
theorem success_ratio_budget_witness :
    ([0, 0, 1] : List ℤ) ≠ [] ∧
      successRatioSum [0, 0, 1] ≤ 1 / 10 + maxLabelRatio [0, 0, 1] :=
  ⟨by decide, success_ratio_budget [0, 0, 1] (by decide)⟩

theorem dedupKeepFirstAux_replicate_mem (k : ℤ) :
    ∀ (m : ℕ) (seen : List ℤ), k ∈ seen → dedupKeepFirstAux seen (List.replicate m k) = [] := by
  intro m
  induction m with
  | zero => intro seen _; rfl
  | succ m ih =>
    intro seen hk
    simp only [List.replicate_succ, dedupKeepFirstAux, if_pos hk]
    exact ih seen hk

theorem dedupKeepFirst_replicate (n : ℕ) (k : ℤ) (hn : 0 < n) :
    dedupKeepFirst (List.replicate n k) = [k] := by
  obtain ⟨m, rfl⟩ := Nat.exists_eq_succ_of_ne_zero hn.ne'
  simp only [List.replicate_succ, dedupKeepFirst, dedupKeepFirstAux]
  simp [dedupKeepFirstAux_replicate_mem k m [k] (by simp)]

/-- Shared computation for the single-cluster behaviour of the identifier:
one cluster, silhouette reported as 1, and every response labeled
`success = false` (the sole label has ratio 1, above the 10% budget). -/
theorem single_cluster_spec (n : ℕ) (k : ℤ) (hn : 0 < n) (silhouette : ℚ) :
    numClusters (List.replicate n k) = 1 ∧
      bestScore (List.replicate n k) silhouette = 1 ∧
      identifyResults (List.replicate n k) = List.replicate n false := by
  have hdedup : dedupKeepFirst (List.replicate n k) = [k] := dedupKeepFirst_replicate n k hn
  have hnum : numClusters (List.replicate n k) = 1 := by rw [numClusters, hdedup]; rfl
  have hratio : labelRatio (List.replicate n k) k = 1 := by
    rw [labelRatio, List.count_replicate_self, List.length_replicate]
    exact div_self (by exact_mod_cast hn.ne')
  have hsorted : sortedLabels (List.replicate n k) = [k] := by
    rw [sortedLabels, hdedup]; rfl
  have hmarked : markedDescriptions (List.replicate n k) = [(k, 1, false)] := by
    rw [markedDescriptions, labelDescriptions, hsorted]
    simp only [List.map_cons, List.map_nil, hratio, greedyMark]
    norm_num
  have hsuccess : labelSuccess (List.replicate n k) k = false := by
    rw [labelSuccess, hmarked]
    simp [List.find?]
  refine ⟨hnum, by rw [bestScore, if_pos hnum], ?_⟩
  rw [identifyResults, List.map_replicate, hsuccess]

/-- C2, counterexample to the claim as stated: at the concrete single-cluster
labeling `[0, 0]` the identifier reports one cluster and silhouette 1, but the
responses are labeled `success = false`, not `success = true` (the single
label has ratio 1, which already exceeds the 10% budget, so the greedy loop
breaks before marking it). -/
theorem single_cluster_counterexample :
    numClusters [(0 : ℤ), 0] = 1 ∧ bestScore [(0 : ℤ), 0] 0 = 1 ∧
      identifyResults [(0 : ℤ), 0] ≠ [true, true] := by
  have h := single_cluster_spec 2 0 (by norm_num) 0
  have hrep : List.replicate 2 (0 : ℤ) = [0, 0] := rfl
  rw [hrep] at h
  exact ⟨h.1, h.2.1, by rw [h.2.2]; decide⟩

/-- C2 amended: when the labeling is a single cluster (all labels equal,
non-empty input), the DBSCAN identifier reports silhouette score exactly 1 and
one cluster, and every response is labeled `success = false` (the sole label
carries ratio 1, above the 10% budget, so it is never marked). -/
theorem single_cluster_all_unsuccessful (n : ℕ) (k : ℤ) (hn : 0 < n) (silhouette : ℚ) :
    numClusters (List.replicate n k) = 1 ∧
      bestScore (List.replicate n k) silhouette = 1 ∧
      identifyResults (List.replicate n k) = List.replicate n false :=
  single_cluster_spec n k hn silhouette

/-- Witness for the amended C2 at the concrete labeling `[5, 5]`. -/
theorem single_cluster_all_unsuccessful_witness :
    0 < 2 ∧
      (numClusters (List.replicate 2 (5 : ℤ)) = 1 ∧
        bestScore (List.replicate 2 (5 : ℤ)) 0 = 1 ∧
        identifyResults (List.replicate 2 (5 : ℤ)) = List.replicate 2 false) :=
  ⟨by decide, single_cluster_all_unsuccessful 2 5 (by decide) 0⟩

/-
Controller response filter, `Controller.is_valid`
(lib/controller/controller.py, lines 457-498), and the recursion queue,
`Controller.add_directory` (lines 644-662).  External library leaves — the
`human_size` pretty-printer (lib/utils/common, not under src/) and Python's
`re.search` on the user-supplied exclusion regexes — enter the model as opaque
function parameters collected in `FilterEnv`; the filter's control flow itself
is embedded exactly.
-/

/-- Python `str.rstrip()`: remove trailing whitespace. -/
def rstrip (s : String) : String :=
  String.mk (s.data.reverse.dropWhile Char.isWhitespace).reverse

/-- The option fields consulted by `Controller.is_valid` and
`Controller.add_directory`. -/
structure ScanOptions where
  exclude_status_codes : List ℤ := []
  include_status_codes : List ℤ := []
  exclude_sizes : List String := []
  minimum_response_size : ℤ := 0
  maximum_response_size : ℤ := 0
  exclude_texts : List String := []
  exclude_regex : String := ""
  exclude_redirect : String := ""

/-- The `Response` fields consulted by `Controller.is_valid`. -/
structure ResponseModel where
  status : ℤ
  path : String
  length : ℤ
  content : String
  redirect : String

/-- External leaves of the filter: the `human_size` pretty-printer
(lib/utils/common, not under src/) and `re.search` on a user-supplied
pattern. -/
structure FilterEnv where
  humanSize : ℤ → String
  regexSearch : String → String → Bool

/-- `Controller.is_valid` (lib/controller/controller.py, lines 457-498).  The
blacklist map sends a status to the suffix list of its blacklist Dictionary,
or `none` when the status has no blacklist; an empty include list falls back to
`range(100, 1000)` through Python's `or`; `res.length > max > 0` is Python's
chained comparison. -/
def Controller.is_valid (env : FilterEnv) (o : ScanOptions)
    (blacklists : ℤ → Option (List String)) (res : ResponseModel) : Bool :=
  if res.status ∈ o.exclude_status_codes then false
  else if ¬ (if o.include_status_codes = []
      then 100 ≤ res.status ∧ res.status ≤ 999
      else res.status ∈ o.include_status_codes) then false
  else if (match blacklists res.status with
    | some bl => bl.any (fun suf => strEnds res.path (lstripOnce suf "/"))
    | none => false) then false
  else if rstrip (env.humanSize res.length) ∈ o.exclude_sizes then false
  else if res.length < o.minimum_response_size then false
  else if res.length > o.maximum_response_size ∧ o.maximum_response_size > 0 then false
  else if o.exclude_texts.any (fun t => strContains res.content t) then false
  else if o.exclude_regex ≠ "" ∧ env.regexSearch o.exclude_regex res.content then false
  else if o.exclude_redirect ≠ ""
      ∧ (strContains res.redirect o.exclude_redirect
        ∨ env.regexSearch o.exclude_redirect res.redirect) then false
  else true

/-- C6: for every response and every option set, if `Controller.is_valid`
returns true then the status is not among the excluded status codes, and when
the include list is non-empty the status is in it. -/
theorem is_valid_status_filters (env : FilterEnv) (o : ScanOptions)
    (blacklists : ℤ → Option (List String)) (res : ResponseModel)
    (h : Controller.is_valid env o blacklists res = true) :
    res.status ∉ o.exclude_status_codes ∧
      (o.include_status_codes ≠ [] → res.status ∈ o.include_status_codes) := by
  rw [Controller.is_valid] at h
  by_cases h1 : res.status ∈ o.exclude_status_codes
  · rw [if_pos h1] at h
    exact absurd h (by decide)
  · rw [if_neg h1] at h
    by_cases h2 : (if o.include_status_codes = []
        then 100 ≤ res.status ∧ res.status ≤ 999
        else res.status ∈ o.include_status_codes)
    · refine ⟨h1, fun hne => ?_⟩
      rw [if_neg hne] at h2
      exact h2
    · rw [if_pos h2] at h
      exact absurd h (by decide)

/-- A concrete filter environment for witnesses: a constant size formatter and
a never-matching regex engine. -/
def demoEnv : FilterEnv :=
  { humanSize := fun _ => "1KB", regexSearch := fun _ _ => false }

/-- Witness for C6: a concrete accepted response with a non-empty include
list. -/
theorem is_valid_status_filters_witness :
    Controller.is_valid demoEnv { include_status_codes := [200] } (fun _ => none)
        { status := 200, path := "admin", length := 5, content := "ok", redirect := "" } = true ∧
      ((200 : ℤ) ∉ ({ include_status_codes := [200] } : ScanOptions).exclude_status_codes ∧
        (({ include_status_codes := [200] } : ScanOptions).include_status_codes ≠ [] →
          (200 : ℤ) ∈ ({ include_status_codes := [200] } : ScanOptions).include_status_codes)) :=
  ⟨by decide, is_valid_status_filters demoEnv { include_status_codes := [200] } (fun _ => none)
    { status := 200, path := "admin", length := 5, content := "ok", redirect := "" } (by decide)⟩

/-- C10 (implicit): with an empty include list, a response whose status lies
outside 100..999 is always rejected by `Controller.is_valid`, because the
empty include list defaults to `range(100, 1000)` rather than to all
statuses. -/
theorem is_valid_rejects_out_of_range (env : FilterEnv) (o : ScanOptions)
    (blacklists : ℤ → Option (List String)) (res : ResponseModel)
    (hinc : o.include_status_codes = [])
    (hs : res.status < 100 ∨ 999 < res.status) :
    Controller.is_valid env o blacklists res = false := by
  rw [Controller.is_valid, hinc]
  by_cases h1 : res.status ∈ o.exclude_status_codes
  · rw [if_pos h1]
  · rw [if_neg h1, if_pos (by rw [if_pos rfl]; omega)]

/-- Witness for C10: status 1000 with an otherwise permissive option set is
rejected. -/
theorem is_valid_rejects_out_of_range_witness :
    Controller.is_valid demoEnv {} (fun _ => none)
        { status := 1000, path := "admin", length := 5, content := "ok", redirect := "" } = false :=
  is_valid_rejects_out_of_range demoEnv {} (fun _ => none)
    { status := 1000, path := "admin", length := 5, content := "ok", redirect := "" }
    (by decide) (by decide)

/-- Number of occurrences of `/` in a string (Python's `s.count("/")`). -/
def slashCount (s : String) : ℕ :=
  s.data.count '/'

/-- Controller fields consulted by `add_directory`: the normalized target URL,
its base path, the recursion depth limit, and the excluded subdirectories. -/
structure CtrlConfig where
  url : String
  base_path : String
  recursion_depth : ℤ
  exclude_subdirs : List String

/-- The controller's mutable recursion state: the FIFO directory queue and the
set of already-enqueued absolute URLs (`passed_urls`, modelled as the list of
its elements in insertion order). -/
structure RecursionState where
  directories : List String
  passed_urls : List String
deriving DecidableEq

/-- `Controller.add_directory` (lib/controller/controller.py, lines 644-662):
skip paths containing an excluded subdirectory; otherwise skip when the
slash-count depth relative to the base path exceeds `recursion_depth` (Python's
chained `a > b > 0`, only when the limit is positive) or the absolute URL was
already enqueued; otherwise append the path to the queue and record its URL. -/
def Controller.add_directory (cfg : CtrlConfig) (st : RecursionState) (path : String) :
    RecursionState :=
  if cfg.exclude_subdirs.any (fun d => strContains path ("/" ++ d)) then st
  else if ((slashCount path : ℤ) - (slashCount cfg.base_path : ℤ) > cfg.recursion_depth
        ∧ cfg.recursion_depth > 0)
      ∨ cfg.url ++ path ∈ st.passed_urls then st
  else { directories := st.directories ++ [path], passed_urls := st.passed_urls ++ [cfg.url ++ path] }

/-- The queue invariant: the absolute URLs of the queued directories are
pairwise distinct, and each of them has been recorded in `passed_urls`. -/
def queueInv (cfg : CtrlConfig) (st : RecursionState) : Prop :=
  (st.directories.map (fun p => cfg.url ++ p)).Nodup ∧
    ∀ p ∈ st.directories, cfg.url ++ p ∈ st.passed_urls

instance (cfg : CtrlConfig) (st : RecursionState) : Decidable (queueInv cfg st) := by
  rw [queueInv]
  infer_instance

/-- C7: `Controller.add_directory` preserves the queue invariant (so the queue
never receives the same URL twice), and whenever it actually appends a path,
the path respects the recursion-depth bound (when the limit is positive), its
URL was not previously enqueued, and its URL is simultaneously recorded in the
visited set. -/
theorem add_directory_depth_and_dedup (cfg : CtrlConfig) (st : RecursionState) (path : String)
    (hinv : queueInv cfg st) :
    queueInv cfg (Controller.add_directory cfg st path) ∧
      ((Controller.add_directory cfg st path).directories ≠ st.directories →
        (Controller.add_directory cfg st path).directories = st.directories ++ [path] ∧
          (cfg.recursion_depth > 0 →
            (slashCount path : ℤ) - (slashCount cfg.base_path : ℤ) ≤ cfg.recursion_depth) ∧
          cfg.url ++ path ∉ st.passed_urls ∧
          cfg.url ++ path ∈ (Controller.add_directory cfg st path).passed_urls) := by
  rw [Controller.add_directory]
  by_cases hexc : (cfg.exclude_subdirs.any (fun d => strContains path ("/" ++ d)) : Bool)
  · rw [if_pos hexc]
    exact ⟨hinv, fun hne => absurd rfl hne⟩
  · rw [if_neg hexc]
    by_cases hskip : ((slashCount path : ℤ) - (slashCount cfg.base_path : ℤ) > cfg.recursion_depth
          ∧ cfg.recursion_depth > 0)
        ∨ cfg.url ++ path ∈ st.passed_urls
    · rw [if_pos hskip]
      exact ⟨hinv, fun hne => absurd rfl hne⟩
    · rw [if_neg hskip]
      push_neg at hskip
      obtain ⟨hdepth, hnotin⟩ := hskip
      obtain ⟨hnd, hrec⟩ := hinv
      refine ⟨⟨?_, ?_⟩, fun _ => ⟨rfl, fun hpos => ?_, hnotin, by simp⟩⟩
      · rw [List.map_append, List.map_singleton]
        rw [List.nodup_append]
        refine ⟨hnd, List.nodup_singleton _, ?_⟩
        intro u hu hu'
        rw [List.mem_singleton] at hu'
        subst hu'
        obtain ⟨p, hp, hpu⟩ := List.mem_map.mp hu
        exact hnotin (hpu ▸ hrec p hp)
      · intro p hp
        rcases List.mem_append.mp hp with hp | hp
        · exact List.mem_append_left _ (hrec p hp)
        · rw [List.mem_singleton] at hp
          subst hp
          exact List.mem_append_right _ (List.mem_singleton_self _)
      · have hngt : ¬ ((slashCount path : ℤ) - (slashCount cfg.base_path : ℤ)
            > cfg.recursion_depth) := fun hgt => absurd (hdepth hgt) (not_le.mpr hpos)
        omega

/-- Witness for C7 at a concrete configuration and state. -/
theorem add_directory_depth_and_dedup_witness :
    queueInv ⟨"http://h/", "", 2, []⟩ ⟨["a/"], ["http://h/a/"]⟩ ∧
      (queueInv ⟨"http://h/", "", 2, []⟩
          (Controller.add_directory ⟨"http://h/", "", 2, []⟩ ⟨["a/"], ["http://h/a/"]⟩ "b/") ∧
        ((Controller.add_directory ⟨"http://h/", "", 2, []⟩
              ⟨["a/"], ["http://h/a/"]⟩ "b/").directories ≠ ["a/"] →
          (Controller.add_directory ⟨"http://h/", "", 2, []⟩
              ⟨["a/"], ["http://h/a/"]⟩ "b/").directories = ["a/"] ++ ["b/"] ∧
            ((2 : ℤ) > 0 → (slashCount "b/" : ℤ) - (slashCount "" : ℤ) ≤ 2) ∧
            "http://h/" ++ "b/" ∉ ["http://h/a/"] ∧
            "http://h/" ++ "b/" ∈ (Controller.add_directory ⟨"http://h/", "", 2, []⟩
              ⟨["a/"], ["http://h/a/"]⟩ "b/").passed_urls)) :=
  ⟨by decide, add_directory_depth_and_dedup ⟨"http://h/", "", 2, []⟩ ⟨["a/"], ["http://h/a/"]⟩ "b/"
    (by decide)⟩

/-
Requester retry loop, `Requester.request`
(lib/connection/requester.py, lines 132-216).  One attempt of the loop body —
proxy selection, session send, response wrapping — is an external effect; its
result enters the model as a function from the attempt index to an outcome
(either a response or a raised Python exception).  The exception classification
chain is embedded exactly, including the source's `e == socket.gaierror`
comparison, which compares an exception *instance* against the exception
*class* and therefore never holds.
-/

/-- A Python value as far as the classification chain observes it: an
exception instance (carrying its class name and its `str(e)` rendering) or a
class object (such as `socket.gaierror`). -/
inductive PyVal where
  | inst (cls : String) (msg : String)
  | pycls (name : String)
deriving DecidableEq

/-- Python `==` on these values: default equality never identifies an
exception instance with a class object; instances compare by identity,
approximated here by class-and-message equality (exact identity would make
even fewer pairs equal, which only strengthens the results below). -/
def pyEq : PyVal → PyVal → Bool
  | .inst c1 m1, .inst c2 m2 => c1 == c2 && m1 == m2
  | .pycls n1, .pycls n2 => n1 == n2
  | _, _ => false

/-- A raised Python exception as the handler sees it. -/
structure PyExc where
  cls : String
  msg : String
deriving DecidableEq

/-- The `err_msg` classification chain of `Requester.request` (lines 184-214).
`readErrRegex` models the configurable `READ_RESPONSE_ERROR_REGEX` search
(lib/core/settings, not under src/) and `netloc` models
`urlparse(url).netloc`; both are external leaves passed as parameters. -/
def classify (readErrRegex : String → Bool) (netloc : String → String)
    (url : String) (proxy : String) (e : PyExc) : String :=
  if pyEq (.inst e.cls e.msg) (.pycls "socket.gaierror") then "Couldn\x27t resolve DNS"
  else if strContains e.msg "SSLError" then "Unexpected SSL error"
  else if strContains e.msg "TooManyRedirects" then "Too many redirects: " ++ url
  else if strContains e.msg "ProxyError" then "Error with the proxy: " ++ proxy
  else if strContains e.msg "InvalidURL" then "Invalid URL: " ++ url
  else if strContains e.msg "InvalidProxyURL" then "Invalid proxy URL: " ++ proxy
  else if strContains e.msg "ConnectionError" then "Cannot connect to: " ++ netloc url
  else if readErrRegex e.msg then "Failed to read response body: " ++ url
  else if strContains e.msg "Timeout"
      || pyEq (.inst e.cls e.msg) (.pycls "http.client.IncompleteRead")
      || pyEq (.inst e.cls e.msg) (.pycls "socket.timeout") then "Request timeout: " ++ url
  else "There was a problem in the request to: " ++ url

/-- Outcome of one attempt of the loop body: a wrapped `Response`, or a raised
exception. -/
inductive AttemptOutcome (ρ : Type) where
  | ok (r : ρ)
  | err (e : PyExc)
deriving DecidableEq

/-- The retry loop of `Requester.request`: with `fuel` iterations left and
`i` attempts already made, try attempt `i`; a successful attempt returns its
response at once, a raised exception updates `err_msg` with its classification
and continues.  The result pairs the loop's outcome (`Except` models the final
`raise RequestException(err_msg)`) with the total number of attempts made. -/
def requestGo (classifyExc : PyExc → String) {ρ : Type} (outcomes : ℕ → AttemptOutcome ρ) :
    ℕ → ℕ → Option String → Except (Option String) ρ × ℕ
  | 0, i, errMsg => (.error errMsg, i)
  | fuel + 1, i, _errMsg =>
    match outcomes i with
    | .ok r => (.ok r, i + 1)
    | .err e => requestGo classifyExc outcomes fuel (i + 1) (some (classifyExc e))

/-- `Requester.request` (lines 145-216): `for _ in range(max_retries + 1)`
around the attempt body, starting with `err_msg = None`, raising
`RequestException(err_msg)` after exhaustion. -/
def Requester.request (classifyExc : PyExc → String) {ρ : Type}
    (maxRetries : ℕ) (outcomes : ℕ → AttemptOutcome ρ) : Except (Option String) ρ × ℕ :=
  requestGo classifyExc outcomes (maxRetries + 1) 0 none

theorem requestGo_all_err (classifyExc : PyExc → String) {ρ : Type}
    (outcomes : ℕ → AttemptOutcome ρ) (fuel : ℕ) :
    ∀ (i : ℕ) (errMsg : Option String), 0 < fuel →
      (∀ j, j < fuel → ∃ e, outcomes (i + j) = .err e) →
      ∃ e, outcomes (i + fuel - 1) = .err e ∧
        requestGo classifyExc outcomes fuel i errMsg
          = (.error (some (classifyExc e)), i + fuel) := by
  induction fuel with
  | zero => intro i errMsg h; omega
  | succ fuel ih =>
    intro i errMsg _ hall
    obtain ⟨e0, he0⟩ := hall 0 (Nat.succ_pos _)
    rw [Nat.add_zero] at he0
    rcases Nat.eq_zero_or_pos fuel with rfl | hfuel
    · exact ⟨e0, by simpa using he0, by simp only [requestGo, he0]⟩
    · obtain ⟨e, he, hgo⟩ := ih (i + 1) (some (classifyExc e0)) hfuel
        (fun j hj => by
          obtain ⟨e', he'⟩ := hall (j + 1) (by omega)
          exact ⟨e', by rw [show i + 1 + j = i + (j + 1) by omega]; exact he'⟩)
      refine ⟨e, by rw [show i + (fuel + 1) - 1 = i + 1 + fuel - 1 by omega]; exact he, ?_⟩
      simp only [requestGo, he0, hgo]
      congr 1
      omega

theorem requestGo_first_ok (classifyExc : PyExc → String) {ρ : Type}
    (outcomes : ℕ → AttemptOutcome ρ) (j : ℕ) :
    ∀ (fuel i : ℕ) (errMsg : Option String) (r : ρ), j < fuel →
      outcomes (i + j) = .ok r →
      (∀ t, t < j → ∃ e, outcomes (i + t) = .err e) →
      requestGo classifyExc outcomes fuel i errMsg = (.ok r, i + j + 1) := by
  induction j with
  | zero =>
    intro fuel i errMsg r hlt hok _
    obtain ⟨fuel, rfl⟩ := Nat.exists_eq_succ_of_ne_zero (Nat.pos_iff_ne_zero.mp hlt)
    rw [Nat.add_zero] at hok
    simp only [requestGo, hok]
  | succ j ih =>
    intro fuel i errMsg r hlt hok hall
    obtain ⟨fuel, rfl⟩ := Nat.exists_eq_succ_of_ne_zero (by omega : fuel ≠ 0)
    obtain ⟨e0, he0⟩ := hall 0 (Nat.succ_pos _)
    rw [Nat.add_zero] at he0
    simp only [requestGo, he0]
    rw [ih fuel (i + 1) (some (classifyExc e0)) r (by omega)
      (by rw [show i + 1 + j = i + (j + 1) by omega]; exact hok)
      (fun t ht => by
        obtain ⟨e', he'⟩ := hall (t + 1) (by omega)
        exact ⟨e', by rw [show i + 1 + t = i + (t + 1) by omega]; exact he'⟩)]
    congr 1
    omega

/-- C8: for every request whose every attempt raises, `Requester.request`
makes exactly `max_retries + 1` attempts and then raises a `RequestException`
carrying the classification of the last failure; and whenever some attempt
succeeds (all earlier ones having raised), the response of that attempt is
returned and no further attempts are made. -/
theorem request_retry_policy (classifyExc : PyExc → String) {ρ : Type}
    (maxRetries : ℕ) (outcomes : ℕ → AttemptOutcome ρ) :
    ((∀ i, i ≤ maxRetries → ∃ e, outcomes i = .err e) →
      ∃ e, outcomes maxRetries = .err e ∧
        Requester.request classifyExc maxRetries outcomes
          = (.error (some (classifyExc e)), maxRetries + 1)) ∧
    (∀ (j : ℕ) (r : ρ), j ≤ maxRetries → outcomes j = .ok r →
      (∀ t, t < j → ∃ e, outcomes t = .err e) →
      Requester.request classifyExc maxRetries outcomes = (.ok r, j + 1)) := by
  constructor
  · intro hall
    obtain ⟨e, he, hgo⟩ := requestGo_all_err classifyExc outcomes (maxRetries + 1) 0 none
      (Nat.succ_pos _) (fun j hj => by simpa using hall j (by omega))
    exact ⟨e, by simpa using he, by rw [Requester.request, hgo]; simp⟩
  · intro j r hj hok hall
    rw [Requester.request,
      requestGo_first_ok classifyExc outcomes j (maxRetries + 1) 0 none r (by omega)
        (by simpa using hok) (fun t ht => by simpa using hall t ht)]
    simp

/-- A DNS resolution failure as Python raises it: a `socket.gaierror`
instance. -/
def gaiExc : PyExc :=
  { cls := "socket.gaierror", msg := "[Errno -2] Name or service not known" }

/-- The classification chain instantiated at concrete external leaves: a
read-response-error regex that does not match a DNS error message, a netloc
extractor, the demo URL, and no proxy. -/
def classifyDemo : PyExc → String :=
  classify (fun _ => false) (fun _ => "example.com") "http://example.com/" ""

/-- Witness for C8: two attempts that both raise a `socket.gaierror` exhaust
`max_retries + 1 = 2` attempts and raise the classified message, while an
immediately successful attempt returns after one attempt. -/
theorem request_retry_policy_witness :
    Requester.request classifyDemo 1 (fun _ => (AttemptOutcome.err gaiExc : AttemptOutcome Unit))
        = (.error (some (classifyDemo gaiExc)), 2) ∧
      Requester.request classifyDemo 1 (fun _ => (AttemptOutcome.ok () : AttemptOutcome Unit))
        = (.ok (), 1) := by
  constructor
  · obtain ⟨e, he, hr⟩ :=
      (request_retry_policy classifyDemo 1
        (fun _ => (AttemptOutcome.err gaiExc : AttemptOutcome Unit))).1
        (fun i _ => ⟨gaiExc, rfl⟩)
    injection he with he
    subst he
    exact hr
  · exact (request_retry_policy classifyDemo 1
      (fun _ => (AttemptOutcome.ok () : AttemptOutcome Unit))).2 0 () (by omega) rfl
      (fun t ht => absurd ht (Nat.not_lt_zero t))

/-- C9 (code behaviour at the failing input): when every attempt raises a
`socket.gaierror`, the exhausted request raises the fallback message, not
"Couldn't resolve DNS": the source compares the exception instance `e` against
the class `socket.gaierror` with `==`, which never holds, so the DNS branch of
the classification is unreachable. -/
theorem gaierror_misclassified :
    Requester.request classifyDemo 2 (fun _ => (AttemptOutcome.err gaiExc : AttemptOutcome Unit))
        = (.error (some "There was a problem in the request to: http://example.com/"), 3) ∧
      classifyDemo gaiExc ≠ "Couldn\x27t resolve DNS" :=
  ⟨rfl, by decide⟩

end Dirsearch
